import Mathlib

/-!
Verification of the pylarexx data-acquisition core against its
specification.

This file gives a shallow embedding of `datalogger/Logger.py`, class
`TLX00`: the 64-byte response-frame parser `parseData`, the
guessed-sensor registry maintained through `addSensor`, and the polling
loop `loop` with its per-device error accounting, listener fan-out and
device removal.  Machine integers are modelled as `Nat` (Python ints are
unbounded); Python exceptions raised and caught inside the loop are
modelled explicitly (`PyErr`); the USB transport and wall clock are
modelled as oracles supplied to the loop functions.
-/

namespace Pylarexx

/-- `TLX00.TIME_OFFSET = 946681200`, the timestamp of 2000-01-01 00:00:00. -/
def TIME_OFFSET : Nat := 946681200

/-- Sensor kind. Modelled from the spec: `datalogger/Sensor.py` is not under
`src/`; `Logger.py` only constructs `ArexxTemperatureSensor` (even guessed
ids) or `ArexxHumiditySensor` (odd guessed ids) and stores them in the
`sensors` dict, so only the kind and the id of a sensor are modelled
(spec section 3: `kind` enumerated, `id` doubles as protocol address). -/
inductive SensorKind where
  | temperature
  | humidity
deriving Repr, DecidableEq

/-- A sensor object as far as `Logger.py` observes it. Modelled from the
spec (see `SensorKind`): the constructors live in the missing
`datalogger/Sensor.py`; only identity fields are kept. -/
structure Sensor where
  id : Nat
  kind : SensorKind
deriving Repr, DecidableEq

/-- The `TLX00.sensors` dict, keyed by sensor id.  A Python dict assignment
`self.sensors[k] = v` is modelled by consing: `List.lookup` finds the newest
binding, matching dict lookup/overwrite semantics. -/
abbrev Registry := List (Nat × Sensor)

/-- `TLX00.addSensor(sensorid)` with the default name and type: guesses a
Temperature sensor for an even id and a Humidity sensor for an odd id and
stores it under the id. -/
def addSensor (reg : Registry) (sensorid : Nat) : Registry :=
  if sensorid % 2 == 0 then (sensorid, ⟨sensorid, .temperature⟩) :: reg
  else (sensorid, ⟨sensorid, .humidity⟩) :: reg

/-- The Python exceptions that `TLX00.parseData` can raise: `IndexError`
from an out-of-range `data[i]`, and `KeyError` from the dict access
`self.sensors[sensorid]` when the id is absent. -/
inductive PyErr where
  | indexError (i : Nat)
  | keyError (k : Nat)
deriving Repr, DecidableEq

/-- One datapoint dict appended by `TLX00.parseData`:
`{'sensorid': …, 'rawvalue': …, 'timestamp': …, 'signal': …, 'sensor': …}`. -/
structure Record where
  sensorid : Nat
  rawvalue : Nat
  timestamp : Nat
  signal : Option Nat
  sensor : Sensor
deriving Repr, DecidableEq

/-- `int.from_bytes([data[pos+1],data[pos+2]], byteorder='little')`:
the sensor id of the record starting at `pos`. -/
def sidAt (data : List Nat) (pos : Nat) : Nat :=
  data.getD (pos + 1) 0 + 256 * data.getD (pos + 2) 0

/-- `int.from_bytes([data[pos+3],data[pos+4]], byteorder='big')`:
the raw value of the record starting at `pos` (note the endianness
asymmetry with the sensor id, reproduced from the source). -/
def rawAt (data : List Nat) (pos : Nat) : Nat :=
  256 * data.getD (pos + 3) 0 + data.getD (pos + 4) 0

/-- `int.from_bytes([data[pos+5..pos+8]], byteorder='little')`:
the device timestamp of the record starting at `pos`. -/
def tsAt (data : List Nat) (pos : Nat) : Nat :=
  data.getD (pos + 5) 0 + 256 * data.getD (pos + 6) 0
    + 65536 * data.getD (pos + 7) 0 + 16777216 * data.getD (pos + 8) 0

/-- The signal-strength read: `data[pos+9]` only when the start mark was
10 (`signal = None` for mark 9); an out-of-range read raises
`IndexError`. -/
def sigResOf (data : List Nat) (pos b : Nat) : Except PyErr (Option Nat) :=
  if b = 10 then
    match data[pos + 9]? with
    | some s => .ok (some s)
    | none => .error (.indexError (pos + 9))
  else .ok none

/-- `if self.detectUnknownSensors and sensorid not in self.sensors:
self.addSensor(sensorid)` — the registry after the detection step. -/
def regAfterDetect (det : Bool) (reg : Registry) (sensorid : Nat) : Registry :=
  if det && (List.lookup sensorid reg).isNone then addSensor reg sensorid
  else reg

/-- The scan loop of `TLX00.parseData` (`while pos < 63: pos += 1; …`),
written with `pos` as the already-incremented scan position, so the body
runs exactly for the positions `pos < 64` that the Python loop inspects.
`fuel` is a structural bound on the remaining iterations; every caller
passes `fuel ≥ 64 - pos`, which by `scanAux` never running past `pos = 63`
makes the `fuel = 0` case unreachable.

Returns the registry after the in-place mutations made by `addSensor`
(mutations persist even when an exception is raised later), the parse
outcome (`.error` models a raised exception propagating out of
`parseData`), and the list of scan positions inspected, in order.

Per scan position (source lines 216-240):
* byte `0`: padding, advance by 1;
* byte `255`: end-of-data marker, stop;
* byte `9` or `10` with `pos < 55`: record start mark; sensor id from
  bytes `pos+1, pos+2` little-endian, raw value from `pos+3, pos+4`
  big-endian, timestamp from `pos+5 … pos+8` little-endian plus
  `TIME_OFFSET`; signal strength from `pos+9` only for mark `10`;
  if detection is on and the id unknown, `addSensor`; then the dict
  access `self.sensors[sensorid]` (a `KeyError` if still absent); then
  `pos += 8` and continue, so the next inspected position is `pos + 9`;
* any other byte: noise, advance by 1. -/
def scanAux (det : Bool) (data : List Nat) :
    Nat → Nat → Registry → List Record →
      Registry × Except PyErr (List Record) × List Nat
  | 0, _, reg, acc => (reg, .ok acc.reverse, [])
  | fuel + 1, pos, reg, acc =>
    if 64 ≤ pos then (reg, .ok acc.reverse, [])
    else
      match data[pos]? with
        | none => (reg, .error (.indexError pos), [pos])
        | some b =>
          if b = 0 then
            let r := scanAux det data fuel (pos + 1) reg acc
            (r.1, r.2.1, pos :: r.2.2)
          else if b = 255 then
            (reg, .ok acc.reverse, [pos])
          else if (b = 9 ∨ b = 10) ∧ pos < 55 then
            if pos + 8 < data.length then
              match sigResOf data pos b with
              | .error e => (reg, .error e, [pos])
              | .ok signal =>
                let reg1 := regAfterDetect det reg (sidAt data pos)
                match List.lookup (sidAt data pos) reg1 with
                | none => (reg1, .error (.keyError (sidAt data pos)), [pos])
                | some s =>
                  let r := scanAux det data fuel (pos + 9) reg1
                    ({ sensorid := sidAt data pos, rawvalue := rawAt data pos,
                       timestamp := tsAt data pos + TIME_OFFSET,
                       signal := signal, sensor := s } :: acc)
                  (r.1, r.2.1, pos :: r.2.2)
            else
              -- the first of the reads data[pos+1] … data[pos+8] that is
              -- out of range raises; its index is max (pos+1) data.length
              (reg, .error (.indexError (max (pos + 1) data.length)), [pos])
          else
            let r := scanAux det data fuel (pos + 1) reg acc
            (r.1, r.2.1, pos :: r.2.2)

/-- `TLX00.parseData(data)`: the scan starts at position 0; 64 units of
fuel cover every position the Python loop can inspect. -/
def parseScan (det : Bool) (reg : Registry) (data : List Nat) :
    Registry × Except PyErr (List Record) × List Nat :=
  scanAux det data 64 0 reg []

/-- The registry (`self.sensors`) after a call to `parseData`. -/
def parseRegAfter (det : Bool) (reg : Registry) (data : List Nat) : Registry :=
  (parseScan det reg data).1

/-- The outcome of `parseData`: the returned datapoint list, or the
exception that propagates out of it. -/
def parseResult (det : Bool) (reg : Registry) (data : List Nat) :
    Except PyErr (List Record) :=
  (parseScan det reg data).2.1

/-- Projection of a datapoint to the fields named by the spec's examples. -/
def recFields (r : Record) : Nat × Nat × Nat × Option Nat :=
  (r.sensorid, r.rawvalue, r.timestamp, r.signal)

/-- The parse outcome with each record projected to
(sensorid, rawvalue, timestamp, signal); `none` when an exception was
raised. -/
def parsePoints (det : Bool) (reg : Registry) (data : List Nat) :
    Option (List (Nat × Nat × Nat × Option Nat)) :=
  (parseResult det reg data).toOption.map (fun recs => recs.map recFields)

/-- A registered listener's `onNewData`, modelled by whether it raises on a
given datapoint (`true` = raises). -/
abbrev ListenerF := Record → Bool

/-- Delivery of one datapoint to the listener list in registration order
(`for l in self.listeners: l.onNewData(datapoint)`).  Returns the indices
of the listeners whose `onNewData` completed, and whether all did; the
first raising listener aborts delivery to the listeners after it. -/
def notifyPoint (dp : Record) : Nat → List ListenerF → List Nat × Bool
  | _, [] => ([], true)
  | i, l :: ls =>
    if l dp then ([], false)
    else
      let r := notifyPoint dp (i + 1) ls
      (i :: r.1, r.2)

/-- The fan-out `for datapoint in datapoints: for l in self.listeners: …`
inside the `try` of `TLX00.loop`: returns the completed deliveries as
(listener index, datapoint) pairs, in order, and whether the fan-out
completed; a raising listener's exception propagates, aborting the
remaining datapoints of the frame. -/
def notifyFrame (L : List ListenerF) : List Record → List (Nat × Record) × Bool
  | [] => ([], true)
  | dp :: dps =>
    let r := notifyPoint dp 0 L
    let delivered := r.1.map (fun i => (i, dp))
    if r.2 then
      let rest := notifyFrame L dps
      (delivered ++ rest.1, rest.2)
    else (delivered, false)

/-- One TL-X00 device as the loop sees it: its identity plus the
attributes attached in `findDevices` (`deviceErrors`, `lastTimeSync`,
`lastTimeDelete`, `lastTimeDataRead`). -/
structure Device where
  devId : Nat
  deviceErrors : Nat
  lastTimeSync : Nat
  lastTimeDelete : Nat
  lastTimeDataRead : Nat
deriving Repr, DecidableEq

/-- `dev.deviceErrors += 1` in the `except` handler of the data-poll. -/
def bump (dev : Device) : Device :=
  { dev with deviceErrors := dev.deviceErrors + 1 }

/-- What one transport exchange of the inner read loop yields: a 64-byte
response frame, or an I/O fault (an exception from `dev.write`/`dev.read`). -/
inductive Exchange where
  | frame (data : List Nat)
  | fault
deriving Repr, DecidableEq

/-- How one iteration of the inner `while True` read loop ended:
`cont` = datapoints delivered, keep polling; `brk` = the no-new-data
`break`; `err` = an exception was caught by the `except` handler. -/
inductive StepRes where
  | cont
  | brk
  | err
deriving Repr, DecidableEq

/-- The part of the inner loop body after a successful read: the
no-new-data test already failed, so `lastTimeDataRead` is updated, the
frame is parsed, and the datapoints are fanned out; a parse exception or
a listener exception is caught by the `except` handler (`err`), which
increments `deviceErrors`; full success resets `deviceErrors` to 0. -/
def processData (det : Bool) (L : List ListenerF) (now : Nat)
    (reg : Registry) (dev : Device) (data : List Nat) :
    Registry × Device × List (Nat × Record) × StepRes :=
  let dev1 := { dev with lastTimeDataRead := now }
  match parseResult det reg data with
  | .error _ => (parseRegAfter det reg data, bump dev1, [], .err)
  | .ok dps =>
    let r := notifyFrame L dps
    if r.2 then (parseRegAfter det reg data, { dev1 with deviceErrors := 0 }, r.1, .cont)
    else (parseRegAfter det reg data, bump dev1, r.1, .err)

/-- One iteration of the inner `while True` read loop (source lines
269-295) given what the exchange yields.  A transport fault is caught by
the `except` handler.  On a frame, `rawdata[0]==0 and rawdata[1]==0`
(with Python short-circuit evaluation, and an `IndexError` on a short
frame being caught like a fault) breaks the loop before anything else. -/
def innerStep (det : Bool) (L : List ListenerF) (now : Nat)
    (reg : Registry) (dev : Device) (x : Exchange) :
    Registry × Device × List (Nat × Record) × StepRes :=
  match x with
  | .fault => (reg, bump dev, [], .err)
  | .frame data =>
    match data[0]? with
    | none => (reg, bump dev, [], .err)
    | some b0 =>
      if b0 = 0 then
        match data[1]? with
        | none => (reg, bump dev, [], .err)
        | some b1 =>
          if b1 = 0 then (reg, dev, [], .brk)
          else processData det L now reg dev data
      else processData det L now reg dev data

/-- Result of running the inner read loop (or of servicing one device):
the registry, the device object (its state survives removal from the
list), whether the `except` handler decided to remove the device
(`deviceErrors > 10`), the completed listener deliveries, and the number
of transport exchanges attempted. -/
structure PollRes where
  reg : Registry
  dev : Device
  removed : Bool
  pubs : List (Nat × Record)
  ops : Nat
deriving Repr, DecidableEq

/-- The inner `while True` read loop of `TLX00.loop`: each iteration
consumes the next exchange the transport yields.  On `cont` it polls
again; on `brk` it stops; on `err` the handler increments `deviceErrors`
(already done inside `innerStep`) and removes the device once the count
exceeds 10, then breaks.  An exhausted exchange trace ends the run. -/
def innerPoll (det : Bool) (L : List ListenerF) (now : Nat) :
    Registry → Device → List Exchange → PollRes
  | reg, dev, [] => ⟨reg, dev, false, [], 0⟩
  | reg, dev, x :: rest =>
    match innerStep det L now reg dev x with
    | (reg1, dev1, pubs, .cont) =>
      let r := innerPoll det L now reg1 dev1 rest
      ⟨r.reg, r.dev, r.removed, pubs ++ r.pubs, 1 + r.ops⟩
    | (reg1, dev1, pubs, .brk) => ⟨reg1, dev1, false, pubs, 1⟩
    | (reg1, dev1, pubs, .err) =>
      ⟨reg1, dev1, decide (10 < dev1.deviceErrors), pubs, 1⟩

/-- Outcome of the two maintenance exchanges of a cycle, when due:
whether `setTime` succeeds (on failure its exception is caught inside
`setTime`; `lastTimeSync` is only updated on success) and likewise for
`deleteDeviceData` / `lastTimeDelete`.  Neither touches `deviceErrors`. -/
structure MaintOracle where
  syncOk : Bool
  eraseOk : Bool

/-- Servicing of one device within a cycle of `TLX00.loop`: time sync if
more than 900 s have passed, flash erase if more than 86400 s have
passed, then the inner read loop. -/
def serviceDevice (det : Bool) (L : List ListenerF) (now : Nat)
    (reg : Registry) (dev : Device) (m : MaintOracle) (trace : List Exchange) :
    PollRes :=
  let syncDue := 900 < now - dev.lastTimeSync
  let dev1 := if syncDue then
      (if m.syncOk then { dev with lastTimeSync := now } else dev)
    else dev
  let eraseDue := 86400 < now - dev1.lastTimeDelete
  let dev2 := if eraseDue then
      (if m.eraseOk then { dev1 with lastTimeDelete := now } else dev1)
    else dev1
  let r := innerPoll det L now reg dev2 trace
  ⟨r.reg, r.dev, r.removed, r.pubs,
    (if syncDue then 1 else 0) + (if eraseDue then 1 else 0) + r.ops⟩

/-- The environment of one cycle of the outer loop: the detection flag,
the listener list as observed at the cycle's `while` check, the wall
clock, per-device maintenance outcomes and exchange traces (keyed by
device id), and the device list installed by the 60-second re-discovery
at the end of the cycle (`none` when no re-discovery replaces it). -/
structure CycleEnv where
  det : Bool
  listeners : List ListenerF
  now : Nat
  maint : Nat → MaintOracle
  trace : Nat → List Exchange
  newDevices : Option (List Device)

/-- Result of one `for dev in self.devices` pass: final registry and
device list, the ids serviced in order, the ids removed, the completed
listener deliveries, and the transport exchanges attempted. -/
structure CycleRes where
  reg : Registry
  devs : List Device
  serviced : List Nat
  removed : List Nat
  pubs : List (Nat × Record)
  ops : Nat

/-- The `for dev in self.devices` pass of `TLX00.loop`, with CPython's
list-iterator semantics made explicit: the iterator keeps an index `i`
into the (mutating) list and stops when `i` reaches the current length.
`self.devices.remove(dev)` removes the current element in place
(`eraseIdx i`, the devices being distinct objects), so after a removal
the next index lands on the element after the removed one's successor.
`fuel` is a structural bound; callers pass `fuel ≥ devs.length - i`,
which keeps the `fuel = 0` case unreachable. -/
def cycleAux (env : CycleEnv) :
    Nat → Registry → List Device → Nat → CycleRes
  | 0, reg, devs, _ => ⟨reg, devs, [], [], [], 0⟩
  | fuel + 1, reg, devs, i =>
    match devs[i]? with
    | none => ⟨reg, devs, [], [], [], 0⟩
    | some dev =>
      let r := serviceDevice env.det env.listeners env.now reg dev
        (env.maint dev.devId) (env.trace dev.devId)
      if r.removed then
        let rest := cycleAux env fuel r.reg (devs.eraseIdx i) (i + 1)
        ⟨rest.reg, rest.devs, dev.devId :: rest.serviced,
          dev.devId :: rest.removed, r.pubs ++ rest.pubs, r.ops + rest.ops⟩
      else
        let rest := cycleAux env fuel r.reg (devs.set i r.dev) (i + 1)
        ⟨rest.reg, rest.devs, dev.devId :: rest.serviced, rest.removed,
          r.pubs ++ rest.pubs, r.ops + rest.ops⟩

/-- One cycle of the outer loop: iterate over the device list from
index 0.  The initial length bounds the number of iterations, since the
index grows by one per iteration and the list never grows mid-cycle. -/
def cycle (env : CycleEnv) (reg : Registry) (devs : List Device) : CycleRes :=
  cycleAux env devs.length reg devs 0

/-- Result of running the outer loop: the final registry and device list,
the number of cycles executed, the transport exchanges attempted, and all
completed listener deliveries. -/
structure LoopRes where
  reg : Registry
  devs : List Device
  cycles : Nat
  ops : Nat
  pubs : List (Nat × Record)

/-- `TLX00.loop`: `while len(self.listeners) > 0`, one `CycleEnv` per
cycle (the environments list bounds how many cycles the oracle provides).
With no registered listeners the `while` condition fails immediately: no
device is polled, no transport exchange happens.  After a cycle the
4-second sleep and the 60-second re-discovery run; re-discovery is
summarised by `newDevices` (a full `findDevices` + `initializeDevices`
replaces the device list). -/
def loopRun : List CycleEnv → Registry → List Device → LoopRes
  | [], reg, devs => ⟨reg, devs, 0, 0, []⟩
  | env :: rest, reg, devs =>
    if env.listeners.isEmpty then ⟨reg, devs, 0, 0, []⟩
    else
      let c := cycle env reg devs
      let devs1 := env.newDevices.getD c.devs
      let r := loopRun rest c.reg devs1
      ⟨r.reg, r.devs, r.cycles + 1, c.ops + r.ops, c.pubs ++ r.pubs⟩

/-- The spec's first example frame:
`[9, 0x05,0x00, 0x00,0x2A, 0x10,0x00,0x00,0x00, 255, 0,…]`. -/
def frame1 : List Nat :=
  9 :: 5 :: 0 :: 0 :: 42 :: 16 :: 0 :: 0 :: 0 :: 255 :: List.replicate 54 0

/-- The spec's second example frame:
`[10, 0x05,0x00, 0x00,0x2A, 0x10,0x00,0x00,0x00, 0x63, 255, 0,…]`. -/
def frame2 : List Nat :=
  10 :: 5 :: 0 :: 0 :: 42 :: 16 :: 0 :: 0 :: 0 :: 99 :: 255 :: List.replicate 53 0

/-- A 64-byte frame whose bytes 0 and 1 are zero but that carries a
well-formed record starting at position 2. -/
def cframe4 : List Nat :=
  0 :: 0 :: 9 :: 5 :: 0 :: 0 :: 42 :: 16 :: 0 :: 0 :: 0 :: 255 :: List.replicate 52 0

/-- A 64-byte frame with a record for sensor 5 at position 0 followed by a
record for sensor 7 at position 9. -/
def cframeC2 : List Nat :=
  9 :: 5 :: 0 :: 0 :: 42 :: 16 :: 0 :: 0 :: 0 ::
  9 :: 7 :: 0 :: 0 :: 43 :: 17 :: 0 :: 0 :: 0 :: 255 :: List.replicate 45 0

/-- The all-zero 64-byte frame: the no-new-data response. -/
def zeros64 : List Nat := List.replicate 64 0

/-- A registry knowing only sensor 5. -/
def reg5 : Registry := [(5, ⟨5, .humidity⟩)]

/-- The datapoint `parseData` decodes from `frame1` (and, up to its signal
field, from `frame2`) starting from the empty registry. -/
def rec1 : Record := ⟨5, 42, TIME_OFFSET + 16, none, ⟨5, .humidity⟩⟩

/-- A listener whose `onNewData` always raises. -/
def badL : ListenerF := fun _ => true

/-- A listener whose `onNewData` always completes. -/
def goodL : ListenerF := fun _ => false

/-- A fresh device (id 1) with no accumulated errors. -/
def devA : Device := ⟨1, 0, 0, 0, 0⟩

/-- A device (id 1) with 5 accumulated consecutive errors. -/
def devB : Device := ⟨1, 5, 0, 0, 0⟩

/-- Device 1 with 10 accumulated errors: one more fault removes it. -/
def dA3 : Device := ⟨1, 10, 0, 0, 0⟩

/-- Device 2, healthy. -/
def dB3 : Device := ⟨2, 0, 0, 0, 0⟩

/-- Device 3, healthy. -/
def dC3 : Device := ⟨3, 0, 0, 0, 0⟩

/-- A cycle environment in which device 1's poll faults and every other
device answers "no new data"; no maintenance is due (`now = 0`). -/
def env3 : CycleEnv :=
  ⟨true, [goodL], 0, fun _ => ⟨true, true⟩,
    fun id => if id = 1 then [.fault] else [.frame zeros64], none⟩

/-- A cycle environment whose listener list is empty. -/
def envE : CycleEnv := ⟨true, [], 0, fun _ => ⟨true, true⟩, fun _ => [], none⟩

/-- A cycle environment with one well-behaved listener. -/
def env1 : CycleEnv := ⟨true, [goodL], 0, fun _ => ⟨true, true⟩, fun _ => [], none⟩

end Pylarexx

namespace Pylarexx

/-- C5: `parse` on the frame starting `[9, 5,0, 0,42, 16,0,0,0, 255, …]`
returns exactly one record with sensorid 5 (little-endian), raw value 42
(big-endian), timestamp `TIME_OFFSET + 16`, signal absent; on the frame
starting `[10, 5,0, 0,42, 16,0,0,0, 0x63, 255, …]` exactly one record
identical to the first plus signal 99. -/
theorem C5_parse_examples :
    parsePoints true [] frame1 = some [(5, 42, TIME_OFFSET + 16, none)] ∧
    parsePoints true [] frame2 = some [(5, 42, TIME_OFFSET + 16, some 99)] := by
  constructor <;> rfl

theorem regAfterDetect_false (reg : Registry) (sid : Nat) :
    regAfterDetect false reg sid = reg := rfl

theorem lookup_regAfterDetect_none {det : Bool} {reg : Registry} {sid : Nat}
    (h : List.lookup sid (regAfterDetect det reg sid) = none) :
    det = false ∧ List.lookup sid reg = none := by
  cases det with
  | false => exact ⟨rfl, by simpa [regAfterDetect] using h⟩
  | true =>
    exfalso
    unfold regAfterDetect at h
    cases hl : List.lookup sid reg with
    | none =>
      by_cases hp : sid % 2 == 0 <;> simp [hl, addSensor, hp, List.lookup] at h
    | some s => simp [hl] at h

theorem lookup_regAfterDetect_true (reg : Registry) (sid : Nat) :
    ∃ s, List.lookup sid (regAfterDetect true reg sid) = some s := by
  unfold regAfterDetect
  cases hl : List.lookup sid reg with
  | none =>
    by_cases hp : sid % 2 == 0
    · exact ⟨⟨sid, .temperature⟩, by simp [hl, addSensor, hp, List.lookup]⟩
    · exact ⟨⟨sid, .humidity⟩, by simp [hl, addSensor, hp, List.lookup]⟩
  | some s => exact ⟨s, by simp [hl]⟩

theorem sigResOf_ten (data : List Nat) (pos : Nat) (h : pos + 9 < data.length) :
    sigResOf data pos 10 = .ok (some (data.getD (pos + 9) 0)) := by
  unfold sigResOf
  rw [if_pos rfl, List.getElem?_eq_getElem h, List.getD_eq_getElem data 0 h]

/-- When detection is disabled the registry is never mutated by the scan:
`addSensor` is only reached under `self.detectUnknownSensors`. -/
theorem scanAux_reg_false (data : List Nat) :
    ∀ fuel pos (reg : Registry) (acc : List Record),
      (scanAux false data fuel pos reg acc).1 = reg := by
  intro fuel
  induction fuel with
  | zero => intro pos reg acc; rfl
  | succ f ih =>
    intro pos reg acc
    unfold scanAux
    by_cases h64 : 64 ≤ pos
    · rw [if_pos h64]
    · rw [if_neg h64]
      cases hb : data[pos]? with
      | none => rfl
      | some b =>
        by_cases hb0 : b = 0
        · simpa [hb0] using ih (pos + 1) reg acc
        · by_cases hb255 : b = 255
          · simp [hb0, hb255]
          · by_cases hmark : (b = 9 ∨ b = 10) ∧ pos < 55
            · by_cases h8 : pos + 8 < data.length
              · simp only [hb0, hb255, hmark, h8, if_true, if_false, if_pos, if_neg,
                  ite_true, ite_false]
                cases hs : sigResOf data pos b with
                | error e => simp [hb0, hb255, hmark, h8, hs]
                | ok signal =>
                  rw [regAfterDetect_false]
                  cases hl : List.lookup (sidAt data pos) reg with
                  | none => simp [hb0, hb255, hmark, h8, hs, regAfterDetect_false, hl]
                  | some s =>
                    simpa [hb0, hb255, hmark, h8, hs, regAfterDetect_false, hl]
                      using ih (pos + 9) reg _
              · simp [hb0, hb255, hmark, h8]
            · simpa [hb0, hb255, hmark] using ih (pos + 1) reg acc

/-- On a 64-byte frame the scan can only end in a normal return or — only
when detection is disabled — in a `KeyError` for a sensor id that the
registry does not know.  In particular no `IndexError` is possible: every
byte access is guarded by `pos < 64` (scan reads), `pos < 55` (record
field reads up to `pos+9 ≤ 63`). -/
theorem scanAux_ok_or_key (det : Bool) (data : List Nat) (hlen : data.length = 64) :
    ∀ fuel pos (reg : Registry) (acc : List Record), 64 - pos ≤ fuel →
      (∃ recs, (scanAux det data fuel pos reg acc).2.1 = .ok recs) ∨
      (det = false ∧ ∃ sid,
        (scanAux det data fuel pos reg acc).2.1 = .error (.keyError sid) ∧
        List.lookup sid reg = none) := by
  intro fuel
  induction fuel with
  | zero => intro pos reg acc hf; exact .inl ⟨acc.reverse, rfl⟩
  | succ f ih =>
    intro pos reg acc hf
    by_cases h64 : 64 ≤ pos
    · left; unfold scanAux; rw [if_pos h64]; exact ⟨acc.reverse, rfl⟩
    · cases hb : data[pos]? with
      | none =>
        exfalso
        rw [List.getElem?_eq_none_iff, hlen] at hb
        omega
      | some b =>
        unfold scanAux
        rw [if_neg h64, hb]
        by_cases hb0 : b = 0
        · simpa [hb0] using ih (pos + 1) reg acc (by omega)
        · by_cases hb255 : b = 255
          · exact .inl ⟨acc.reverse, by simp [hb0, hb255]⟩
          · by_cases hmark : (b = 9 ∨ b = 10) ∧ pos < 55
            · obtain ⟨hb910, hp55⟩ := hmark
              have h8 : pos + 8 < data.length := by rw [hlen]; omega
              have h9 : pos + 9 < data.length := by rw [hlen]; omega
              have hs : ∃ sg, sigResOf data pos b = .ok sg := by
                rcases hb910 with rfl | rfl
                · exact ⟨none, rfl⟩
                · exact ⟨some (data.getD (pos + 9) 0), sigResOf_ten data pos h9⟩
              obtain ⟨sg, hs⟩ := hs
              have hbne : (b = 9 ∨ b = 10) ∧ pos < 55 := by
                constructor
                · exact hb910
                · exact hp55
              cases hl : List.lookup (sidAt data pos)
                  (regAfterDetect det reg (sidAt data pos)) with
              | none =>
                obtain ⟨hdet, hlr⟩ := lookup_regAfterDetect_none hl
                right
                refine ⟨hdet, sidAt data pos, ?_, hlr⟩
                simp [hb0, hb255, hbne, h8, hs, hl]
              | some s =>
                rcases ih (pos + 9) (regAfterDetect det reg (sidAt data pos))
                    ({ sensorid := sidAt data pos, rawvalue := rawAt data pos,
                       timestamp := tsAt data pos + TIME_OFFSET,
                       signal := sg, sensor := s } :: acc) (by omega) with
                  ⟨recs, hok⟩ | ⟨hdet, sid2, herr, hl2⟩
                · exact .inl ⟨recs, by simp [hb0, hb255, hbne, h8, hs, hl, hok]⟩
                · right
                  refine ⟨hdet, sid2, ?_, ?_⟩
                  · simp [hb0, hb255, hbne, h8, hs, hl, herr]
                  · rw [hdet, regAfterDetect_false] at hl2
                    exact hl2
            · simpa [hb0, hb255, hmark] using ih (pos + 1) reg acc (by omega)

/-- Every scan position the parser inspects lies below 64, on any input. -/
theorem scanAux_visited_lt (det : Bool) (data : List Nat) :
    ∀ fuel pos (reg : Registry) (acc : List Record) p,
      p ∈ (scanAux det data fuel pos reg acc).2.2 → p < 64 := by
  intro fuel
  induction fuel with
  | zero => intro pos reg acc p hp; simp [scanAux] at hp
  | succ f ih =>
    intro pos reg acc p hp
    by_cases h64 : 64 ≤ pos
    · unfold scanAux at hp; rw [if_pos h64] at hp; simp at hp
    · unfold scanAux at hp
      rw [if_neg h64] at hp
      cases hb : data[pos]? with
      | none => rw [hb] at hp; simp at hp; omega
      | some b =>
        rw [hb] at hp
        by_cases hb0 : b = 0
        · simp only [hb0, if_pos rfl, ite_true] at hp
          simp at hp
          rcases hp with rfl | hp
          · omega
          · exact ih (pos + 1) reg acc p hp
        · by_cases hb255 : b = 255
          · simp [hb0, hb255] at hp; omega
          · by_cases hmark : (b = 9 ∨ b = 10) ∧ pos < 55
            · by_cases h8 : pos + 8 < data.length
              · cases hs : sigResOf data pos b with
                | error e => simp [hb0, hb255, hmark, h8, hs] at hp; omega
                | ok sg =>
                  cases hl : List.lookup (sidAt data pos)
                      (regAfterDetect det reg (sidAt data pos)) with
                  | none => simp [hb0, hb255, hmark, h8, hs, hl] at hp; omega
                  | some s =>
                    simp [hb0, hb255, hmark, h8, hs, hl] at hp
                    rcases hp with rfl | hp
                    · omega
                    · exact ih (pos + 9) _ _ p hp
              · simp [hb0, hb255, hmark, h8] at hp; omega
            · simp [hb0, hb255, hmark] at hp
              rcases hp with rfl | hp
              · omega
              · exact ih (pos + 1) reg acc p hp

/-- C10: with unknown-sensor detection enabled, `parseData` on any
64-byte frame is total: it raises neither `IndexError` nor `KeyError`
but returns a record list; moreover every scan position it inspects is
below 64, so together with the `pos < 55` record guard every byte access
`data[pos+k]`, `k ≤ 9`, stays inside the frame. -/
theorem C10_parse_total (data : List Nat) (reg : Registry)
    (hlen : data.length = 64) :
    (∃ recs, parseResult true reg data = .ok recs) ∧
    (∀ p ∈ (parseScan true reg data).2.2, p < 64) := by
  constructor
  · rcases scanAux_ok_or_key true data hlen 64 0 reg [] (by omega) with h | ⟨hdet, _⟩
    · exact h
    · exact absurd hdet (by simp)
  · intro p hp
    exact scanAux_visited_lt true data 64 0 reg [] p hp

/-- C10 witness: the all-zero frame parses without any exception. -/
theorem C10_parse_total_witness :
    (∃ recs, parseResult true [] zeros64 = .ok recs) ∧
    (∀ p ∈ (parseScan true [] zeros64).2.2, p < 64) :=
  C10_parse_total zeros64 [] (by rfl)

/-- C7: encountering the byte 255 at a scan position halts the scan
immediately: the parse returns exactly the records accumulated so far,
the registry is not touched further, and position `pos` is the only (and
last) position inspected — no later byte is read, so no record starting
after `pos` can be returned. -/
theorem C7_sentinel_halts (det : Bool) (data : List Nat) (f pos : Nat)
    (reg : Registry) (acc : List Record)
    (hpos : pos < 64) (h255 : data[pos]? = some 255) :
    scanAux det data (f + 1) pos reg acc = (reg, .ok acc.reverse, [pos]) := by
  unfold scanAux
  rw [if_neg (by omega), h255]
  simp

/-- C7 witness: in `frame1` the byte at scan position 9 is 255; scanning
from there stops at once. -/
theorem C7_sentinel_halts_witness :
    scanAux true frame1 55 9 [] [] = ([], .ok [], [9]) :=
  C7_sentinel_halts true frame1 54 9 [] [] (by omega) (by rfl)

/-- Scanning from any position below 64 inspects that position first. -/
theorem scanAux_visited_head (det : Bool) (data : List Nat) (g pos : Nat)
    (reg : Registry) (acc : List Record) (h64 : pos < 64)
    (hplen : pos < data.length) :
    ((scanAux det data (g + 1) pos reg acc).2.2).head? = some pos := by
  unfold scanAux
  rw [if_neg (by omega), List.getElem?_eq_getElem hplen]
  by_cases hb0 : data[pos] = 0
  · simp [hb0]
  · by_cases hb255 : data[pos] = 255
    · simp [hb0, hb255]
    · by_cases hmark : (data[pos] = 9 ∨ data[pos] = 10) ∧ pos < 55
      · by_cases h8 : pos + 8 < data.length
        · cases hs : sigResOf data pos data[pos] with
          | error e => simp [hb0, hb255, hmark, h8, hs]
          | ok sg =>
            cases hl : List.lookup (sidAt data pos)
                (regAfterDetect det reg (sidAt data pos)) with
            | none => simp [hb0, hb255, hmark, h8, hs, hl]
            | some s => simp [hb0, hb255, hmark, h8, hs, hl]
        · simp [hb0, hb255, hmark, h8]
      · simp [hb0, hb255, hmark]

/-- C6: when the scan matches a record mark (9 or 10) at position
`pos < 55`, the cursor advance is 8 plus the loop increment in both
cases: the scan continues exactly at `pos + 9`, the record's signal field
is `data[pos+9]` for mark 10 and absent for mark 9, and (last conjunct)
position `pos + 9` is itself inspected as the next scan position — so in
the 10-byte case the signal byte is re-inspected. -/
theorem C6_fixed_advance (data : List Nat) (f pos b : Nat) (reg : Registry)
    (acc : List Record) (hlen : data.length = 64) (hp55 : pos < 55)
    (hb : data[pos]? = some b) (hb910 : b = 9 ∨ b = 10) :
    ∃ reg1 rec,
      scanAux true data (f + 1) pos reg acc =
        ((scanAux true data f (pos + 9) reg1 (rec :: acc)).1,
         (scanAux true data f (pos + 9) reg1 (rec :: acc)).2.1,
         pos :: (scanAux true data f (pos + 9) reg1 (rec :: acc)).2.2) ∧
      (b = 10 → rec.signal = some (data.getD (pos + 9) 0)) ∧
      (b = 9 → rec.signal = none) ∧
      (∀ g, pos + 9 < 64 →
        ((scanAux true data (g + 1) (pos + 9) reg1 (rec :: acc)).2.2).head? =
          some (pos + 9)) := by
  have h8 : pos + 8 < data.length := by rw [hlen]; omega
  have h9 : pos + 9 < data.length := by rw [hlen]; omega
  obtain ⟨s, hl⟩ := lookup_regAfterDetect_true reg (sidAt data pos)
  rcases hb910 with rfl | rfl
  · refine ⟨regAfterDetect true reg (sidAt data pos),
      { sensorid := sidAt data pos, rawvalue := rawAt data pos,
        timestamp := tsAt data pos + TIME_OFFSET,
        signal := none, sensor := s }, ?_, ?_, ?_, ?_⟩
    · conv_lhs => unfold scanAux
      simp [hb, hp55, h8, hl, sigResOf, show ¬ (64 ≤ pos) from by omega]
    · intro h10; exact absurd h10 (by decide)
    · intro _; rfl
    · intro g hg
      exact scanAux_visited_head true data g (pos + 9) _ _ hg h9
  · refine ⟨regAfterDetect true reg (sidAt data pos),
      { sensorid := sidAt data pos, rawvalue := rawAt data pos,
        timestamp := tsAt data pos + TIME_OFFSET,
        signal := some (data.getD (pos + 9) 0), sensor := s }, ?_, ?_, ?_, ?_⟩
    · conv_lhs => unfold scanAux
      simp [hb, hp55, h8, hl, sigResOf_ten data pos h9,
        show ¬ (64 ≤ pos) from by omega]
    · intro _; rfl
    · intro h9'; exact absurd h9' (by decide)
    · intro g hg
      exact scanAux_visited_head true data g (pos + 9) _ _ hg h9

/-- C6 witness: the mark 10 at position 0 of `frame2` consumes 10 bytes
but the scan resumes at position 9, the signal byte, which is inspected
again. -/
theorem C6_fixed_advance_witness :
    ∃ reg1 rec,
      scanAux true frame2 64 0 [] [] =
        ((scanAux true frame2 63 9 reg1 (rec :: [])).1,
         (scanAux true frame2 63 9 reg1 (rec :: [])).2.1,
         0 :: (scanAux true frame2 63 9 reg1 (rec :: [])).2.2) ∧
      ((10 : Nat) = 10 → rec.signal = some (frame2.getD 9 0)) ∧
      ((10 : Nat) = 9 → rec.signal = none) ∧
      (∀ g, 9 < 64 →
        ((scanAux true frame2 (g + 1) 9 reg1 (rec :: [])).2.2).head? = some 9) :=
  C6_fixed_advance frame2 63 0 10 [] [] (by rfl) (by omega) (by rfl) (.inr rfl)

/-- C1 amended: when a registered listener's `onNewData` raises during the
fan-out of a polled frame, the exception is caught by the per-poll
`except` handler (the poll returns normally and the acquisition loop goes
on), but the fan-out is aborted: only the deliveries completed before the
raise are made, the device's error counter is incremented — possibly
triggering removal — and the inner read loop breaks. -/
theorem C1_amended (det : Bool) (L : List ListenerF) (now : Nat)
    (reg : Registry) (dev : Device) (data : List Nat) (rest : List Exchange)
    (dps : List Record) (delivered : List (Nat × Record)) (b0 b1 : Nat)
    (h0 : data[0]? = some b0) (h1 : data[1]? = some b1)
    (hnz : ¬(b0 = 0 ∧ b1 = 0))
    (hparse : parseResult det reg data = .ok dps)
    (hnotify : notifyFrame L dps = (delivered, false)) :
    innerPoll det L now reg dev (.frame data :: rest) =
      ⟨parseRegAfter det reg data,
        { dev with lastTimeDataRead := now,
                   deviceErrors := dev.deviceErrors + 1 },
        decide (10 < dev.deviceErrors + 1), delivered, 1⟩ := by
  have hproc : processData det L now reg dev data =
      (parseRegAfter det reg data,
        { dev with lastTimeDataRead := now,
                   deviceErrors := dev.deviceErrors + 1 }, delivered, .err) := by
    unfold processData bump
    rw [hparse]
    simp [hnotify]
  have hstep : innerStep det L now reg dev (.frame data) =
      (parseRegAfter det reg data,
        { dev with lastTimeDataRead := now,
                   deviceErrors := dev.deviceErrors + 1 }, delivered, .err) := by
    unfold innerStep
    by_cases hb0 : b0 = 0
    · have hb1 : ¬ b1 = 0 := fun hh => hnz ⟨hb0, hh⟩
      simp [h0, h1, hb0, hb1, hproc]
    · simp [h0, hb0, hproc]
  unfold innerPoll
  rw [hstep]

/-- C1 amended, witness: a raising listener ahead of a well-behaved one
aborts the fan-out; the poll returns normally with the error counter
incremented and the inner loop broken (the pending fault exchange is
never consumed). -/
theorem C1_amended_witness :
    innerPoll true [badL, goodL] 0 [] devA [.frame frame1, .fault] =
      ⟨parseRegAfter true [] frame1,
        { devA with lastTimeDataRead := 0,
                    deviceErrors := devA.deviceErrors + 1 },
        decide (10 < devA.deviceErrors + 1), [], 1⟩ :=
  C1_amended true [badL, goodL] 0 [] devA frame1 [.fault] [rec1] [] 9 5
    (by rfl) (by rfl) (by decide) (by rfl) (by rfl)

/-- C2 amended: with detection disabled, a record whose sensor id the
registry does not know makes `parseData` raise `KeyError` (the code
defines no `UnknownSensorError`); the poll's `except` handler catches it,
so the whole frame is dropped — no record of the frame is published, not
even those before the offending record —, the device's error counter is
incremented (possibly triggering removal), the registry is unchanged, the
inner read loop breaks, and the outer acquisition loop continues. -/
theorem C2_amended (L : List ListenerF) (now : Nat) (reg : Registry)
    (dev : Device) (data : List Nat) (rest : List Exchange) (e : PyErr)
    (b0 b1 : Nat) (hlen : data.length = 64)
    (h0 : data[0]? = some b0) (h1 : data[1]? = some b1)
    (hnz : ¬(b0 = 0 ∧ b1 = 0))
    (herr : parseResult false reg data = .error e) :
    innerPoll false L now reg dev (.frame data :: rest) =
      ⟨reg,
        { dev with lastTimeDataRead := now,
                   deviceErrors := dev.deviceErrors + 1 },
        decide (10 < dev.deviceErrors + 1), [], 1⟩ ∧
    ∃ sid, e = .keyError sid ∧ List.lookup sid reg = none := by
  have hregf : parseRegAfter false reg data = reg := scanAux_reg_false data 64 0 reg []
  constructor
  · have hproc : processData false L now reg dev data =
        (reg, { dev with lastTimeDataRead := now,
                         deviceErrors := dev.deviceErrors + 1 }, [], .err) := by
      unfold processData bump
      rw [herr]
      simp [hregf]
    have hstep : innerStep false L now reg dev (.frame data) =
        (reg, { dev with lastTimeDataRead := now,
                         deviceErrors := dev.deviceErrors + 1 }, [], .err) := by
      unfold innerStep
      by_cases hb0 : b0 = 0
      · have hb1 : ¬ b1 = 0 := fun hh => hnz ⟨hb0, hh⟩
        simp [h0, h1, hb0, hb1, hproc]
      · simp [h0, hb0, hproc]
    unfold innerPoll
    rw [hstep]
  · rcases scanAux_ok_or_key false data hlen 64 0 reg [] (by omega) with
      ⟨recs, hok⟩ | ⟨_, sid, herr2, hlr⟩
    · have hok' : parseResult false reg data = .ok recs := hok
      rw [herr] at hok'
      exact absurd hok' (by simp)
    · have herr2' : parseResult false reg data = .error (.keyError sid) := herr2
      rw [herr] at herr2'
      refine ⟨sid, ?_, hlr⟩
      injection herr2'

/-- C2 amended, witness: the frame `cframeC2` (known sensor 5, then
unknown sensor 7) under a registry knowing only sensor 5. -/
theorem C2_amended_witness :
    (innerPoll false [goodL] 0 reg5 devA [.frame cframeC2, .fault] =
      ⟨reg5,
        { devA with lastTimeDataRead := 0,
                    deviceErrors := devA.deviceErrors + 1 },
        decide (10 < devA.deviceErrors + 1), [], 1⟩ ∧
    ∃ sid, PyErr.keyError 7 = .keyError sid ∧ List.lookup sid reg5 = none) :=
  C2_amended [goodL] 0 reg5 devA cframeC2 [.fault] (.keyError 7) 9 5
    (by rfl) (by rfl) (by rfl) (by decide) (by rfl)

/-- C4 counterexample: on a 64-byte frame whose bytes 0 and 1 are both
zero, `parseData` itself does not return an empty record list regardless
of the remaining bytes — a record marker at position 2 is still decoded,
because the two-leading-zeros test lives in `TLX00.loop`, not in
`parseData`. -/
theorem C4_counterexample :
    cframe4.getD 0 0 = 0 ∧ cframe4.getD 1 0 = 0 ∧
    parsePoints true [] cframe4 = some [(5, 42, TIME_OFFSET + 16, none)] ∧
    parsePoints true [] cframe4 ≠ some [] := by
  refine ⟨rfl, rfl, rfl, by decide⟩

/-- C4 amended: the "no new data" test `rawdata[0]==0 and rawdata[1]==0`
is performed by the poll loop before `parseData` is invoked, and it
short-circuits the poll: the inner read loop breaks with no records
published, no state change to the device or registry, and no further
exchange consumed.  (`parseData` applied to such a frame may itself
return records; only the poll is short-circuited.) -/
theorem C4_amended (det : Bool) (L : List ListenerF) (now : Nat)
    (reg : Registry) (dev : Device) (data : List Nat) (rest : List Exchange)
    (h0 : data[0]? = some 0) (h1 : data[1]? = some 0) :
    innerPoll det L now reg dev (.frame data :: rest) = ⟨reg, dev, false, [], 1⟩ := by
  unfold innerPoll
  rw [show innerStep det L now reg dev (.frame data) = (reg, dev, [], .brk) by
    unfold innerStep; simp [h0, h1]]

/-- C4 amended, witness: the all-zero frame short-circuits the poll even
with further exchanges pending. -/
theorem C4_amended_witness :
    innerPoll true [goodL] 7 [] devA [.frame zeros64, .fault] =
      ⟨[], devA, false, [], 1⟩ :=
  C4_amended true [goodL] 7 [] devA zeros64 [.fault] (by rfl) (by rfl)

/-- C1 counterexample: with a raising listener registered before a
well-behaved one, a published datapoint is delivered to neither — the
fault is caught only by the per-poll `except` handler, which also
increments the device's error counter; the remaining registered listener
does not receive the datapoint. -/
theorem C1_counterexample :
    parseResult true [] frame1 = .ok [rec1] ∧
    (innerPoll true [badL, goodL] 0 [] devA [.frame frame1]).pubs = [] ∧
    (1, rec1) ∉ (innerPoll true [badL, goodL] 0 [] devA [.frame frame1]).pubs ∧
    (innerPoll true [badL, goodL] 0 [] devA [.frame frame1]).dev.deviceErrors = 1 := by
  refine ⟨rfl, rfl, by decide, rfl⟩

/-- C2 counterexample: with detection disabled and a frame carrying a
record for the known sensor 5 followed by a record for the unknown
sensor 7, `parseData` raises `KeyError` (not an `UnknownSensorError`,
which the code does not define); the whole frame is dropped — the record
for sensor 5 is not published either — and the device's error counter is
incremented. -/
theorem C2_counterexample :
    parseResult false reg5 cframeC2 = .error (.keyError 7) ∧
    (innerPoll false [goodL] 0 reg5 devA [.frame cframeC2]).pubs = [] ∧
    (innerPoll false [goodL] 0 reg5 devA [.frame cframeC2]).dev.deviceErrors = 1 := by
  refine ⟨rfl, rfl, rfl⟩

/-- C8 counterexample: a successful exchange that answers "no new data"
does not reset the error counter — the `break` happens before
`dev.deviceErrors = 0` is reached, so a device with 5 accumulated errors
keeps them across a successful poll. -/
theorem C8_counterexample :
    (innerPoll true [goodL] 0 [] devB [.frame zeros64]).dev.deviceErrors = 5 ∧
    (innerPoll true [goodL] 0 [] devB [.frame zeros64]).dev.deviceErrors ≠ 0 ∧
    (innerPoll true [goodL] 0 [] devB [.frame zeros64]).removed = false := by
  refine ⟨rfl, by decide, rfl⟩

theorem list_mem_of_getElem? {α : Type} {l : List α} {i : Nat} {x : α}
    (h : l[i]? = some x) : x ∈ l := by
  obtain ⟨hlt, hh⟩ := List.getElem?_eq_some_iff.mp h
  subst hh
  exact List.getElem_mem hlt

theorem list_map_eraseIdx {α β : Type} (f : α → β) :
    ∀ (l : List α) (i : Nat), (l.eraseIdx i).map f = (l.map f).eraseIdx i := by
  intro l
  induction l with
  | nil => intro i; simp
  | cons a t ih =>
    intro i
    cases i with
    | zero => simp
    | succ i => simp [ih i]

theorem list_set_getElem?_self {α : Type} :
    ∀ (l : List α) (i : Nat) (x : α), l[i]? = some x → l.set i x = l := by
  intro l
  induction l with
  | nil => intro i x h; simp at h
  | cons a t ih =>
    intro i x h
    cases i with
    | zero => simp at h; simp [h]
    | succ i => simp at h; simp [ih i x h]

theorem list_mem_eraseIdx_or {α : Type} :
    ∀ (l : List α) (i : Nat) (x : α), x ∈ l → x ∈ l.eraseIdx i ∨ l[i]? = some x := by
  intro l
  induction l with
  | nil => intro i x hx; simp at hx
  | cons a t ih =>
    intro i x hx
    cases i with
    | zero =>
      rcases List.mem_cons.mp hx with rfl | hx
      · right; simp
      · left; simpa using hx
    | succ i =>
      rcases List.mem_cons.mp hx with rfl | hx
      · left; simp
      · rcases ih i x hx with h | h
        · left; simp [h]
        · right; simpa using h

theorem list_getElem?_eraseIdx_lt {α : Type} :
    ∀ (l : List α) (i j : Nat), j < i → (l.eraseIdx i)[j]? = l[j]? := by
  intro l
  induction l with
  | nil => intro i j hj; simp
  | cons a t ih =>
    intro i j hj
    cases i with
    | zero => omega
    | succ i =>
      cases j with
      | zero => simp
      | succ j => simpa using ih i j (by omega)

theorem list_drop_eraseIdx_succ {α : Type} :
    ∀ (l : List α) (i : Nat), (l.eraseIdx i).drop (i + 1) = l.drop (i + 2) := by
  intro l
  induction l with
  | nil => intro i; simp
  | cons a t ih =>
    intro i
    cases i with
    | zero => simp
    | succ i => simpa using ih i

theorem list_drop_set_of_lt {α : Type} :
    ∀ (l : List α) (a : α) (i j : Nat), i < j → (l.set i a).drop j = l.drop j := by
  intro l
  induction l with
  | nil => intro a i j hij; simp
  | cons b t ih =>
    intro a i j hij
    cases i with
    | zero =>
      cases j with
      | zero => omega
      | succ j => simp
    | succ i =>
      cases j with
      | zero => omega
      | succ j => simpa using ih a i j (by omega)

/-- `processData` only rewrites attached attributes of the device object;
its identity is untouched. -/
theorem processData_devId (det : Bool) (L : List ListenerF) (now : Nat)
    (reg : Registry) (dev : Device) (data : List Nat) :
    (processData det L now reg dev data).2.1.devId = dev.devId := by
  unfold processData bump
  cases parseResult det reg data with
  | error e => rfl
  | ok dps =>
    by_cases hr : (notifyFrame L dps).2 <;> simp [hr]

/-- One poll iteration never changes the device's identity. -/
theorem innerStep_devId (det : Bool) (L : List ListenerF) (now : Nat)
    (reg : Registry) (dev : Device) (x : Exchange) :
    (innerStep det L now reg dev x).2.1.devId = dev.devId := by
  cases x with
  | fault => rfl
  | frame data =>
    unfold innerStep
    rcases h0 : data[0]? with _ | b0
    · simp [h0, bump]
    · by_cases hb0 : b0 = 0
      · rcases h1 : data[1]? with _ | b1
        · simp [h0, hb0, h1, bump, processData_devId]
        · by_cases hb1 : b1 = 0 <;>
            simp [h0, hb0, h1, hb1, bump, processData_devId]
      · simp [h0, hb0, bump, processData_devId]

/-- The inner read loop never changes the device's identity. -/
theorem innerPoll_devId (det : Bool) (L : List ListenerF) (now : Nat) :
    ∀ (reg : Registry) (dev : Device) (tr : List Exchange),
      (innerPoll det L now reg dev tr).dev.devId = dev.devId := by
  intro reg dev tr
  induction tr generalizing reg dev with
  | nil => rfl
  | cons x rest ih =>
    have hid := innerStep_devId det L now reg dev x
    unfold innerPoll
    rcases hstep : innerStep det L now reg dev x with ⟨reg1, dev1, pubs, sres⟩
    rw [hstep] at hid
    simp only [] at hid
    cases sres with
    | cont => simpa [ih reg1 dev1] using hid
    | brk => simpa using hid
    | err => simpa using hid

/-- Servicing never changes the device's identity. -/
theorem serviceDevice_devId (det : Bool) (L : List ListenerF) (now : Nat)
    (reg : Registry) (dev : Device) (m : MaintOracle) (trace : List Exchange) :
    (serviceDevice det L now reg dev m trace).dev.devId = dev.devId := by
  unfold serviceDevice
  simp only [innerPoll_devId]
  split_ifs <;> rfl

/-- A device id present at the start of a cycle is, afterwards, either
still in the device list or among the removed ids: removal by the error
handler is the only way out of the active set. -/
theorem cycleAux_mem (env : CycleEnv) :
    ∀ (fuel : Nat) (reg : Registry) (devs : List Device) (i : Nat) (x : Nat),
      x ∈ devs.map Device.devId →
      x ∈ (cycleAux env fuel reg devs i).devs.map Device.devId ∨
        x ∈ (cycleAux env fuel reg devs i).removed := by
  intro fuel
  induction fuel with
  | zero => intro reg devs i x hx; exact .inl hx
  | succ f ih =>
    intro reg devs i x hx
    unfold cycleAux
    cases hdi : devs[i]? with
    | none => exact .inl hx
    | some dev =>
      cases hrem : (serviceDevice env.det env.listeners env.now reg dev
          (env.maint dev.devId) (env.trace dev.devId)).removed with
      | true =>
        simp only [hdi, hrem, ite_true]
        rcases list_mem_eraseIdx_or (devs.map Device.devId) i x hx with h | h
        · rw [← list_map_eraseIdx] at h
          rcases ih _ (devs.eraseIdx i) (i + 1) x h with h2 | h2
          · exact .inl h2
          · exact .inr (List.mem_cons_of_mem _ h2)
        · rw [List.getElem?_map, hdi] at h
          right
          simp only [Option.map_some', Option.some.injEq] at h
          subst h
          exact List.mem_cons_self _ _
      | false =>
        simp only [hdi, hrem, Bool.false_eq_true, ite_false]
        have hset : (devs.set i (serviceDevice env.det env.listeners env.now reg dev
            (env.maint dev.devId) (env.trace dev.devId)).dev).map Device.devId =
            devs.map Device.devId := by
          rw [List.map_set, serviceDevice_devId]
          apply list_set_getElem?_self
          rw [List.getElem?_map, hdi]
          rfl
        apply ih
        rw [hset]
        exact hx

/-- The ids serviced from index `i` on all come from positions `≥ i` of
the device list at that point. -/
theorem cycleAux_serviced (env : CycleEnv) :
    ∀ (fuel : Nat) (reg : Registry) (devs : List Device) (i : Nat) (x : Nat),
      x ∈ (cycleAux env fuel reg devs i).serviced →
      x ∈ (devs.drop i).map Device.devId := by
  intro fuel
  induction fuel with
  | zero => intro reg devs i x hx; simp [cycleAux] at hx
  | succ f ih =>
    intro reg devs i x hx
    unfold cycleAux at hx
    rcases hdi : devs[i]? with _ | dev
    · rw [hdi] at hx
      simp at hx
    · have hmemi : dev ∈ devs.drop i := by
        have hd0 : (devs.drop i)[0]? = some dev := by
          rw [List.getElem?_drop]
          simpa using hdi
        obtain ⟨hlt, h⟩ := List.getElem?_eq_some_iff.mp hd0
        exact h ▸ List.getElem_mem hlt
      cases hrem : (serviceDevice env.det env.listeners env.now reg dev
          (env.maint dev.devId) (env.trace dev.devId)).removed with
      | true =>
        simp only [hdi, hrem, ite_true, List.mem_cons] at hx
        rcases hx with rfl | hx
        · exact List.mem_map_of_mem _ hmemi
        · have h2 := ih _ _ _ x hx
          rw [list_drop_eraseIdx_succ] at h2
          refine List.map_subset _ ?_ h2
          rw [← List.drop_drop]
          exact List.drop_subset _ _
      | false =>
        simp only [hdi, hrem, Bool.false_eq_true, ite_false, List.mem_cons] at hx
        rcases hx with rfl | hx
        · exact List.mem_map_of_mem _ hmemi
        · have h2 := ih _ _ _ x hx
          rw [list_drop_set_of_lt _ _ _ _ (by omega)] at h2
          refine List.map_subset _ ?_ h2
          rw [← List.drop_drop]
          exact List.drop_subset _ _

/-- Positions before the iteration index are never touched by the rest of
the cycle. -/
theorem cycleAux_below (env : CycleEnv) :
    ∀ (fuel : Nat) (reg : Registry) (devs : List Device) (i j : Nat), j < i →
      (cycleAux env fuel reg devs i).devs[j]? = devs[j]? := by
  intro fuel
  induction fuel with
  | zero => intro reg devs i j hj; rfl
  | succ f ih =>
    intro reg devs i j hj
    unfold cycleAux
    cases hdi : devs[i]? with
    | none => rfl
    | some dev =>
      cases hrem : (serviceDevice env.det env.listeners env.now reg dev
          (env.maint dev.devId) (env.trace dev.devId)).removed with
      | true =>
        simp only [hdi, hrem, ite_true]
        rw [ih _ _ _ j (by omega)]
        exact list_getElem?_eraseIdx_lt devs i j hj
      | false =>
        simp only [hdi, hrem, Bool.false_eq_true, ite_false]
        rw [ih _ _ _ j (by omega)]
        exact List.getElem?_set_ne (by omega)

/-- C3 counterexample: with devices 1, 2, 3 in the list and device 1
being removed during the pass (`self.devices.remove(dev)` inside the
`for dev in self.devices` iteration), device 2 — in the set at the start
of the cycle — is skipped in that cycle: only devices 1 and 3 are
serviced.  Device 2 does remain in the device list. -/
theorem C3_counterexample :
    (cycle env3 [] [dA3, dB3, dC3]).serviced = [1, 3] ∧
    (2 : Nat) ∉ (cycle env3 [] [dA3, dB3, dC3]).serviced ∧
    dB3.devId = 2 ∧ dB3 ∈ [dA3, dB3, dC3] ∧
    dB3 ∈ (cycle env3 [] [dA3, dB3, dC3]).devs ∧
    (cycle env3 [] [dA3, dB3, dC3]).removed = [1] := by
  refine ⟨rfl, by decide, rfl, by decide, by decide, rfl⟩

/-- One cycle step at the head of the device list when servicing removes
the head: the iterator then continues at index 1 of the shortened list. -/
theorem cycleAux_head_removed (env : CycleEnv) (fuel : Nat) (reg : Registry)
    (dev : Device) (devs : List Device)
    (hrem : (serviceDevice env.det env.listeners env.now reg dev
        (env.maint dev.devId) (env.trace dev.devId)).removed = true) :
    (cycleAux env (fuel + 1) reg (dev :: devs) 0).serviced =
      dev.devId :: (cycleAux env fuel
        (serviceDevice env.det env.listeners env.now reg dev
          (env.maint dev.devId) (env.trace dev.devId)).reg devs 1).serviced ∧
    (cycleAux env (fuel + 1) reg (dev :: devs) 0).devs =
      (cycleAux env fuel
        (serviceDevice env.det env.listeners env.now reg dev
          (env.maint dev.devId) (env.trace dev.devId)).reg devs 1).devs := by
  constructor
  · conv_lhs => unfold cycleAux
    simp [hrem]
  · conv_lhs => unfold cycleAux
    simp [hrem]

/-- C3 amended: removal is an in-loop destructive `self.devices.remove(dev)`
during the `for dev in self.devices` iteration, not a mark-and-filter pass;
consequently the device immediately following the removed one in the list
is skipped for the remainder of that cycle — it is not serviced — although
it does remain in the device set for later cycles. -/
theorem C3_amended (env : CycleEnv) (reg : Registry) (dA dB : Device)
    (rest : List Device)
    (hnodup : ((dA :: dB :: rest).map Device.devId).Nodup)
    (hrem : (serviceDevice env.det env.listeners env.now reg dA
        (env.maint dA.devId) (env.trace dA.devId)).removed = true) :
    dB.devId ∉ (cycle env reg (dA :: dB :: rest)).serviced ∧
    dB ∈ (cycle env reg (dA :: dB :: rest)).devs := by
  have hmap : (dA :: dB :: rest).map Device.devId =
      dA.devId :: dB.devId :: rest.map Device.devId := rfl
  rw [hmap] at hnodup
  have h1 := List.nodup_cons.mp hnodup
  have h2 := List.nodup_cons.mp h1.2
  have hAB : dA.devId ≠ dB.devId := fun h => h1.1 (h ▸ List.mem_cons_self _ _)
  have hBrest : dB.devId ∉ rest.map Device.devId := h2.1
  have hc : cycle env reg (dA :: dB :: rest) =
      cycleAux env (rest.length + 1 + 1) reg (dA :: dB :: rest) 0 := rfl
  obtain ⟨hserv, hdevs⟩ :=
    cycleAux_head_removed env (rest.length + 1) reg dA (dB :: rest) hrem
  constructor
  · intro hmem
    rw [hc, hserv] at hmem
    rcases List.mem_cons.mp hmem with h | h
    · exact hAB h.symm
    · have hsub := cycleAux_serviced env (rest.length + 1) _ (dB :: rest) 1
        dB.devId h
      simp only [List.drop_succ_cons, List.drop_zero] at hsub
      exact hBrest hsub
  · rw [hc, hdevs]
    have h0 := cycleAux_below env (rest.length + 1)
      (serviceDevice env.det env.listeners env.now reg dA
        (env.maint dA.devId) (env.trace dA.devId)).reg
      (dB :: rest) 1 0 (by omega)
    simp only [List.getElem?_cons_zero] at h0
    exact list_mem_of_getElem? h0

/-- C3 amended, witness: device 1's removal skips device 2 in that cycle,
but device 2 is still in the device list afterwards. -/
theorem C3_amended_witness :
    dB3.devId ∉ (cycle env3 [] [dA3, dB3, dC3]).serviced ∧
    dB3 ∈ (cycle env3 [] [dA3, dB3, dC3]).devs :=
  C3_amended env3 [] dA3 dB3 [dC3] (by decide) (by rfl)

/-- C8 amended: the error counter is reset to 0 only by a data poll that
returns data and completes parsing and fan-out (the no-new-data response
and the maintenance exchanges leave it unchanged — see the C8
counterexample); any caught exception of the poll body increments it and
breaks the inner loop; the device is removed exactly when the counter
exceeds 10, i.e. at the 11th consecutive failure (at 10 accumulated
errors one more fault removes, below 10 it does not); and a device id
leaves the active set during a cycle only by that removal. -/
theorem C8_amended (det : Bool) (L : List ListenerF) (now : Nat)
    (reg : Registry) (dev : Device) (data : List Nat) (rest : List Exchange)
    (dps : List Record) (delivered : List (Nat × Record)) (b0 b1 : Nat) :
    (data[0]? = some b0 → data[1]? = some b1 → ¬(b0 = 0 ∧ b1 = 0) →
      parseResult det reg data = .ok dps →
      notifyFrame L dps = (delivered, true) →
      innerStep det L now reg dev (.frame data) =
        (parseRegAfter det reg data,
          { dev with lastTimeDataRead := now, deviceErrors := 0 },
          delivered, .cont)) ∧
    innerPoll det L now reg dev (.fault :: rest) =
      ⟨reg, bump dev, decide (10 < dev.deviceErrors + 1), [], 1⟩ ∧
    (dev.deviceErrors = 10 →
      (innerPoll det L now reg dev (.fault :: rest)).removed = true) ∧
    (dev.deviceErrors < 10 →
      (innerPoll det L now reg dev (.fault :: rest)).removed = false) ∧
    (∀ (env : CycleEnv) (creg : Registry) (devs : List Device) (x : Nat),
      x ∈ devs.map Device.devId →
      x ∈ (cycle env creg devs).devs.map Device.devId ∨
        x ∈ (cycle env creg devs).removed) := by
  refine ⟨?_, ?_, ?_, ?_, ?_⟩
  · intro h0 h1 hnz hparse hnotify
    have hproc : processData det L now reg dev data =
        (parseRegAfter det reg data,
          { dev with lastTimeDataRead := now, deviceErrors := 0 },
          delivered, .cont) := by
      unfold processData
      rw [hparse]
      simp [hnotify]
    unfold innerStep
    by_cases hb0 : b0 = 0
    · have hb1 : ¬ b1 = 0 := fun hh => hnz ⟨hb0, hh⟩
      simp [h0, h1, hb0, hb1, hproc]
    · simp [h0, hb0, hproc]
  · rfl
  · intro h
    show decide (10 < dev.deviceErrors + 1) = true
    rw [h]
    rfl
  · intro h
    show decide (10 < dev.deviceErrors + 1) = false
    exact decide_eq_false (by omega)
  · intro env creg devs x hx
    exact cycleAux_mem env devs.length creg devs 0 x hx

/-- C8 amended, witness: a full successful poll resets device B's counter
from 5 to 0; one fault increments it and does not remove at 6 errors; a
device already at 10 errors is removed by one more fault; and in the
three-device cycle of `env3`, device 2's id survives in the set. -/
theorem C8_amended_witness :
    innerStep true [goodL] 0 [] devB (.frame frame1) =
      (parseRegAfter true [] frame1,
        { devB with lastTimeDataRead := 0, deviceErrors := 0 },
        [(0, rec1)], .cont) ∧
    innerPoll true [goodL] 0 [] devB [.fault] =
      ⟨[], bump devB, decide (10 < devB.deviceErrors + 1), [], 1⟩ ∧
    (innerPoll true [goodL] 0 [] dA3 [.fault]).removed = true ∧
    (innerPoll true [goodL] 0 [] devB [.fault]).removed = false ∧
    ((2 : Nat) ∈ (cycle env3 [] [dA3, dB3, dC3]).devs.map Device.devId ∨
      (2 : Nat) ∈ (cycle env3 [] [dA3, dB3, dC3]).removed) := by
  have h := C8_amended true [goodL] 0 [] devB frame1 [] [rec1] [(0, rec1)] 9 5
  have h10 := C8_amended true [goodL] 0 [] dA3 frame1 [] [rec1] [(0, rec1)] 9 5
  exact ⟨h.1 rfl rfl (by decide) rfl rfl, h.2.1, h10.2.2.1 rfl,
    h.2.2.2.1 (by decide), h.2.2.2.2 env3 [] [dA3, dB3, dC3] 2 (by decide)⟩

/-- The outer loop executes exactly one cycle per `while` check that sees
a non-empty listener list, and stops at the first check that sees an
empty one. -/
theorem loopRun_cycles_of_listeners (rest : List CycleEnv) (env : CycleEnv)
    (hempty : env.listeners = []) :
    ∀ (pre : List CycleEnv) (reg : Registry) (devs : List Device),
      (∀ e ∈ pre, e.listeners ≠ []) →
      (loopRun (pre ++ env :: rest) reg devs).cycles = pre.length := by
  intro pre
  induction pre with
  | nil =>
    intro reg devs _
    unfold loopRun
    simp [hempty]
  | cons e pre ih =>
    intro reg devs hpre
    have he : e.listeners ≠ [] := hpre e (List.mem_cons_self _ _)
    have he' : e.listeners.isEmpty = false := by
      cases hE : e.listeners with
      | nil => exact absurd hE he
      | cons a l => rfl
    rw [List.cons_append]
    unfold loopRun
    rw [he']
    simp only [ite_false, Bool.false_eq_true]
    rw [ih _ _ (fun e' h => hpre e' (List.mem_cons_of_mem _ h))]
    rfl

/-- C9: the acquisition loop runs only while a listener is registered.
With an empty listener list at the first per-cycle `while` check it
returns at once: zero cycles, zero transport exchanges, no deliveries,
registry and device list untouched.  And it executes exactly one cycle
per check that saw a non-empty listener list, terminating at the first
check that sees the list empty — the condition is evaluated once per
outer cycle. -/
theorem C9_loop_termination (reg : Registry) (devs : List Device)
    (env : CycleEnv) (pre rest : List CycleEnv)
    (hempty : env.listeners = [])
    (hpre : ∀ e ∈ pre, e.listeners ≠ []) :
    loopRun (env :: rest) reg devs = ⟨reg, devs, 0, 0, []⟩ ∧
    (loopRun (pre ++ env :: rest) reg devs).cycles = pre.length := by
  constructor
  · unfold loopRun
    simp [hempty]
  · exact loopRun_cycles_of_listeners rest env hempty pre reg devs hpre

/-- C9 witness: with no listener the loop does nothing at all; with one
listener for one cycle and none at the next check, exactly one cycle
runs. -/
theorem C9_loop_termination_witness :
    loopRun [envE] [] [] = ⟨[], [], 0, 0, []⟩ ∧
    (loopRun [env1, envE] [] []).cycles = 1 := by
  have h := C9_loop_termination [] [] envE [env1] [] rfl
    (by intro e he
        simp only [List.mem_singleton] at he
        subst he
        simp [env1])
  exact ⟨h.1, h.2⟩

end Pylarexx
